import Mathlib

/-!
# Span lifecycle of `another.go`

A shallow embedding of `src/another.go` (`initTracer`, `main`, `Operation`,
`SubOperation`, `PeerOperation`, `SubChildOperation`).  The Go functions are
translated statement by statement into state-passing functions over a `World`
that holds the provider state, a logical clock, the span store, the pending
queue of the batch buffer and the trace of every library call made so far.

The tracing library itself (tracer, span, carrier, provider) is not part of the
repository; its operations are modelled from the contracts of the specification
(sections 3, 4 and 6) and are marked as such.
-/

namespace OtelTrace

/-! ## Data model -/

/-- Identifier of a span: its position in the span store of the process. -/
abbrev SpanId := Nat

/-- Typed attribute value (string, int or bool). -/
inductive AttrValue where
  | str (s : String)
  | int (i : Int)
  | bool (b : Bool)
  deriving DecidableEq, Repr

/-- Lifecycle state of a span. -/
inductive SpanState where
  | Open
  | Closed
  deriving DecidableEq, Repr

/-- One entry of a span's ordered event sequence. -/
structure SpanEvent where
  name : String
  timestamp : Nat
  attributes : List (String × AttrValue)
  deriving DecidableEq, Repr

/-- Record of one unit of work. -/
structure Span where
  id : SpanId
  name : String
  tracerName : String
  parent : Option SpanId
  startTimestamp : Nat
  endTimestamp : Option Nat
  attributes : List (String × AttrValue)
  events : List SpanEvent
  state : SpanState
  deriving DecidableEq, Repr

/-- Context carrier: the active span reference plus the baggage entries. -/
structure Carrier where
  activeSpanRef : Option SpanId
  baggage : List (String × String)
  deriving DecidableEq, Repr

/-- Lifecycle of the tracer provider. -/
inductive ProviderState where
  | Uninitialized
  | Running
  | ShutDown
  deriving DecidableEq, Repr

/-- Named span factory; the name is only a label put on the spans it creates. -/
structure Tracer where
  name : String
  deriving DecidableEq, Repr

/-- Handle returned by `Tracer.Start`: `some id` for a recording span, `none`
for the disabled span handed out when the provider is not running. -/
abbrev SpanHandle := Option SpanId

/-- One library call, as recorded in the trace of the process.  The `state`
fields are the state in which the call found the span it refers to. -/
inductive Call where
  | initTracer (ok : Bool)
  | getTracer (name : String)
  | start (provider : ProviderState) (carrier : Carrier) (name : String)
      (parentState : Option SpanState) (span : SpanHandle)
  | setAttributes (span : SpanHandle) (key : String) (value : AttrValue)
      (state : Option SpanState)
  | addEvent (span : SpanHandle) (name : String) (state : Option SpanState)
  | spanEnd (span : SpanHandle) (state : Option SpanState)
  | sleep (ms : Nat)
  | shutdown
  deriving DecidableEq, Repr

/-- Process state threaded through every call. -/
structure World where
  provider : ProviderState
  now : Nat
  spans : List Span
  pending : List Span
  drained : List Span
  trace : List Call
  deriving DecidableEq, Repr

/-- State of the process when `main` is entered. -/
def World.init : World :=
  { provider := .Uninitialized, now := 0, spans := [], pending := [], drained := [],
    trace := [] }

/-- State of the span a handle refers to, if it refers to one. -/
def World.stateOf (w : World) (h : SpanHandle) : Option SpanState :=
  match h with
  | none => none
  | some id => (w.spans[id]?).map Span.state

/-! ## Library operations -/

/-- Modelled from the spec: the attribute set of section 3 (mapping from key to
value, last write wins); the library's attribute store is not in the repository. -/
def setAttr (attrs : List (String × AttrValue)) (key : String) (value : AttrValue) :
    List (String × AttrValue) :=
  attrs.filter (fun kv => kv.1 != key) ++ [(key, value)]

/-- Modelled from the spec: reading an attribute of the attribute set of section 3. -/
def getAttr (attrs : List (String × AttrValue)) (key : String) : Option AttrValue :=
  (attrs.find? (fun kv => kv.1 == key)).map Prod.snd

/-- Modelled from the spec: `context.Background()`, the carrier without active span
and without baggage (section 3); the context package is not in the repository. -/
def Background : Carrier :=
  { activeSpanRef := none, baggage := [] }

/-- Errors of the baggage surface. -/
inductive TraceError where
  | InvalidBaggageKey
  deriving DecidableEq, Repr

/-- Modelled from the spec: `withBaggage(key, value)` of section 6; an empty key is
rejected, otherwise a new carrier with the entry is returned (keys unique). -/
def Carrier.withBaggage (c : Carrier) (key value : String) : Except TraceError Carrier :=
  if key = "" then .error .InvalidBaggageKey
  else .ok { c with baggage := c.baggage.filter (fun kv => kv.1 != key) ++ [(key, value)] }

/-- Modelled from the spec: `baggageValue(key)` of section 6. -/
def Carrier.baggageValue (c : Carrier) (key : String) : Option String :=
  (c.baggage.find? (fun kv => kv.1 == key)).map Prod.snd

/-- Modelled from the spec: `initialize` of section 4.1, reduced to what
`initTracer` uses of it: the provider is registered and becomes Running. -/
def registerProvider (w : World) : World :=
  { w with provider := .Running }

/-- Modelled from the spec: `getTracer(name)` of section 4.1, which only returns a
handle stamped with `name`. -/
def getTracer (name : String) (w : World) : Tracer × World :=
  ({ name := name }, { w with trace := w.trace ++ [.getTracer name] })

/-- Modelled from the spec: `start(carrier, spanName)` of section 4.2, with the
use-after-shutdown rule of section 7.  While the provider is Running the new span
gets a fresh identifier, the parent read from `carrier.activeSpanRef`, state Open
and the current time; the derived carrier copies the baggage and refers to the new
span.  Otherwise a disabled span is returned and nothing is recorded. -/
def Tracer.Start (tr : Tracer) (carrier : Carrier) (spanName : String) (w : World) :
    Carrier × SpanHandle × World :=
  match w.provider with
  | .Running =>
    let id : SpanId := w.spans.length
    let span : Span :=
      { id := id, name := spanName, tracerName := tr.name, parent := carrier.activeSpanRef,
        startTimestamp := w.now, endTimestamp := none, attributes := [], events := [],
        state := .Open }
    ({ carrier with activeSpanRef := some id }, some id,
      { w with
        spans := w.spans ++ [span]
        trace := w.trace ++
          [.start w.provider carrier spanName (w.stateOf carrier.activeSpanRef) (some id)] })
  | _ =>
    (carrier, none,
      { w with
        trace := w.trace ++
          [.start w.provider carrier spanName (w.stateOf carrier.activeSpanRef) none] })

/-- Modelled from the spec: `setAttribute(key, value)` of section 4.3; a no-op on a
span that is Closed (or disabled). -/
def SetAttributes (h : SpanHandle) (key : String) (value : AttrValue) (w : World) : World :=
  let w1 := { w with trace := w.trace ++ [.setAttributes h key value (w.stateOf h)] }
  match h with
  | none => w1
  | some id =>
    match w.spans[id]? with
    | none => w1
    | some s =>
      match s.state with
      | .Closed => w1
      | .Open =>
        { w1 with spans := w.spans.set id { s with attributes := setAttr s.attributes key value } }

/-- Modelled from the spec: `addEvent(name)` of section 4.3; appends an event with
the current time, a no-op on a span that is Closed (or disabled). -/
def AddEvent (h : SpanHandle) (name : String) (w : World) : World :=
  let w1 := { w with trace := w.trace ++ [.addEvent h name (w.stateOf h)] }
  match h with
  | none => w1
  | some id =>
    match w.spans[id]? with
    | none => w1
    | some s =>
      match s.state with
      | .Closed => w1
      | .Open =>
        { w1 with
          spans := w.spans.set id
            { s with events := s.events ++ [{ name := name, timestamp := w.now, attributes := [] }] } }

/-- Modelled from the spec: `end()` of section 4.3 together with `onSpanEnd` of
section 4.4.  An Open span gets its end timestamp, becomes Closed and is appended to
the pending queue of the batch buffer; on a Closed span the call is a no-op.  The
size- and time-triggered flushes of the buffer run asynchronously and are not part
of this sequential model, so `pending` keeps every span handed over. -/
def End (h : SpanHandle) (w : World) : World :=
  let w1 := { w with trace := w.trace ++ [.spanEnd h (w.stateOf h)] }
  match h with
  | none => w1
  | some id =>
    match w.spans[id]? with
    | none => w1
    | some s =>
      match s.state with
      | .Closed => w1
      | .Open =>
        let closed : Span := { s with endTimestamp := some w.now, state := .Closed }
        { w1 with spans := w.spans.set id closed, pending := w.pending ++ [closed] }

/-- Modelled from the spec: `shutdown` of section 4.1 with `forceFlushAll` of
section 4.4; the pending spans are drained and the provider becomes ShutDown, a
second call changes nothing. -/
def Shutdown (w : World) : World :=
  let w1 := { w with trace := w.trace ++ [.shutdown] }
  match w.provider with
  | .Running => { w1 with provider := .ShutDown, drained := w.drained ++ w.pending, pending := [] }
  | _ => w1

/-- Modelled from the spec: `time.Sleep`, which lets `now()` advance by the given
number of milliseconds. -/
def Sleep (ms : Nat) (w : World) : World :=
  { w with now := w.now + ms, trace := w.trace ++ [.sleep ms] }

/-! ## The program (`src/another.go`) -/

/-- The key `fooKey`. -/
def fooKey : String := "ex.com/foo"

/-- The key `barKey`. -/
def barKey : String := "ex.com/bar"

/-- The key `lemonsKey`. -/
def lemonsKey : String := "ex.com/lemons"

/-- The key `anotherKey`. -/
def anotherKey : String := "ex.com/another"

/-- Embedding of `initTracer`; `expErr` is the error (if any) returned by the
exporter constructor `otlptracehttp.New`. -/
def initTracer (expErr : Option String) (w : World) : Option String × World :=
  match expErr with
  | some err =>
    (some ("failed to initialize httptrace exporter: " ++ err),
      { w with trace := w.trace ++ [.initTracer false] })
  | none =>
    (none, registerProvider { w with trace := w.trace ++ [.initTracer true] })

/-- Embedding of `SubChildOperation`; the deferred `span.End()` runs when the body
is done. -/
def SubChildOperation (ctx : Carrier) (tr : Tracer) (w : World) : Option String × World :=
  let (_, span, w) := tr.Start ctx "Sub child operation..." w
  let w := SetAttributes span lemonsKey (.str "five") w
  let w := AddEvent span "Sub child span event" w
  let w := Sleep 10 w
  (none, End span w)

/-- Embedding of `SubOperation`; the carrier returned by `Start` is discarded and
the callee receives the caller's `ctx`. -/
def SubOperation (ctx : Carrier) (tr : Tracer) (w : World) : Option String × World :=
  let (_, span, w) := tr.Start ctx "Sub operation..." w
  let w := SetAttributes span lemonsKey (.str "five") w
  let w := AddEvent span "Sub span event" w
  let w := Sleep 15 w
  let (_, w) := SubChildOperation ctx tr w
  (none, End span w)

/-- Embedding of `PeerOperation`. -/
def PeerOperation (ctx : Carrier) (tr : Tracer) (w : World) : Option String × World :=
  let (_, span, w) := tr.Start ctx "Peer operation..." w
  let w := SetAttributes span lemonsKey (.str "five") w
  let w := AddEvent span "Peer span event" w
  let w := Sleep 5 w
  (none, End span w)

/-- Embedding of `Operation`; `.error err` stands for `panic(err)`. -/
def Operation (ctx : Carrier) (tracer : Tracer) (w : World) : Except String Unit × World :=
  let (ctx, span, w) := tracer.Start ctx "Main operation" w
  let w := End span w
  match SubOperation ctx tracer w with
  | (some err, w) => (.error err, w)
  | (none, w) =>
    match PeerOperation ctx tracer w with
    | (some err, w) => (.error err, w)
    | (none, w) => (.ok (), w)

/-- How a run of `main` stands when the model stops following it. -/
inductive Outcome where
  | panicked (msg : String)
  | looping
  | returned
  deriving DecidableEq, Repr

/-- The `for` loop of `main`, followed for `fuel` iterations.  The loop has no
`break` and no `return`; it is left only by a panic of `Operation`. -/
def mainLoop (ctx : Carrier) (tracer : Tracer) : Nat → World → Outcome × World
  | 0, w => (.looping, w)
  | fuel + 1, w =>
    match Operation ctx tracer w with
    | (.error err, w) => (.panicked err, w)
    | (.ok (), w) => mainLoop ctx tracer fuel (Sleep 50 w)

/-- The carrier `main` builds: the background context with the baggage members
`fooKey = "foo1"` and `barKey = "bar1"`; the errors of the baggage calls are
discarded as in the source. -/
def mainCarrier : Carrier :=
  let ctx := Background
  let ctx := match ctx.withBaggage fooKey "foo1" with
    | .ok c => c
    | .error _ => ctx
  match ctx.withBaggage barKey "bar1" with
  | .ok c => c
  | .error _ => ctx

/-- Embedding of `main`, its loop followed for `fuel` iterations.  `log.Panic` on an
`initTracer` error happens before the `defer` of `tp.Shutdown` is reached; once it
is registered the deferred call runs when `main` is left, by return or by panic.
`stdr.SetVerbosity` only sets the log level and has no counterpart here. -/
def main (expErr : Option String) (fuel : Nat) : Outcome × World :=
  let w := World.init
  match initTracer expErr w with
  | (some err, w) => (.panicked err, w)
  | (none, w) =>
    let (tracer, w) := getTracer "example/namedtracer/main" w
    let ctx := mainCarrier
    match mainLoop ctx tracer fuel w with
    | (.looping, w) => (.looping, w)
    | (.panicked err, w) => (.panicked err, Shutdown w)
    | (.returned, w) => (.returned, Shutdown w)

/-! ## Observations on a run -/

/-- Calls recorded after the state `w0` on the way to the later state `w`. -/
def World.callsSince (w0 w : World) : List Call :=
  w.trace.drop w0.trace.length

/-- Spans put into the store after the state `w0`. -/
def World.spansSince (w0 w : World) : List Span :=
  w.spans.drop w0.spans.length

/-- Spans handed to the batch buffer after the state `w0`, in the order of arrival. -/
def World.pendingSince (w0 w : World) : List Span :=
  w.pending.drop w0.pending.length

/-- What one `Tracer.Start` call recorded. -/
structure StartCall where
  provider : ProviderState
  carrier : Carrier
  name : String
  parentState : Option SpanState
  span : SpanHandle
  deriving DecidableEq, Repr

/-- The record of a call when it is a `Tracer.Start` call. -/
def Call.asStart : Call → Option StartCall
  | .start p c n ps h => some { provider := p, carrier := c, name := n, parentState := ps, span := h }
  | _ => none

/-- The `Tracer.Start` calls of a trace, in order. -/
def startCalls (t : List Call) : List StartCall :=
  t.filterMap Call.asStart

/-- The span an `End` call was made on and the state the call found it in. -/
def Call.asEnd : Call → Option (SpanHandle × Option SpanState)
  | .spanEnd h st => some (h, st)
  | _ => none

/-- The `End` calls of a trace, in order. -/
def endCalls (t : List Call) : List (SpanHandle × Option SpanState) :=
  t.filterMap Call.asEnd

/-- The span a `SetAttributes` or `AddEvent` call was made on and the state the call
found it in. -/
def Call.asMutation : Call → Option (SpanHandle × Option SpanState)
  | .setAttributes h _ _ st => some (h, st)
  | .addEvent h _ st => some (h, st)
  | _ => none

/-- The `SetAttributes` and `AddEvent` calls of a trace, in order. -/
def mutationCalls (t : List Call) : List (SpanHandle × Option SpanState) :=
  t.filterMap Call.asMutation

/-- Whether a call is a provider lifecycle call (`initTracer` or `Shutdown`). -/
def Call.isLifecycle : Call → Bool
  | .initTracer _ => true
  | .shutdown => true
  | _ => false

/-- Whether a call is a call of `initTracer`. -/
def Call.isInit : Call → Bool
  | .initTracer _ => true
  | _ => false

/-- The span of the given name among `spans`, if there is one. -/
def spanNamed (spans : List Span) (name : String) : Option Span :=
  spans.find? (fun s => s.name == name)

/-! ## Closed form of one call of `Operation` -/

/-- The four spans one call of `Operation` leaves in the store when it starts with
`n` spans in the store at time `t`. -/
def opSpans (ctx : Carrier) (tr : Tracer) (n t : Nat) : List Span :=
  [{ id := n, name := "Main operation", tracerName := tr.name, parent := ctx.activeSpanRef,
     startTimestamp := t, endTimestamp := some t, attributes := [], events := [],
     state := .Closed },
   { id := n + 1, name := "Sub operation...", tracerName := tr.name, parent := some n,
     startTimestamp := t, endTimestamp := some (t + 25),
     attributes := [(lemonsKey, .str "five")],
     events := [{ name := "Sub span event", timestamp := t, attributes := [] }],
     state := .Closed },
   { id := n + 2, name := "Sub child operation...", tracerName := tr.name, parent := some n,
     startTimestamp := t + 15, endTimestamp := some (t + 25),
     attributes := [(lemonsKey, .str "five")],
     events := [{ name := "Sub child span event", timestamp := t + 15, attributes := [] }],
     state := .Closed },
   { id := n + 3, name := "Peer operation...", tracerName := tr.name, parent := some n,
     startTimestamp := t + 25, endTimestamp := some (t + 30),
     attributes := [(lemonsKey, .str "five")],
     events := [{ name := "Peer span event", timestamp := t + 25, attributes := [] }],
     state := .Closed }]

/-- The spans of `opSpans` in the order in which they reach the batch buffer. -/
def opPending (ctx : Carrier) (tr : Tracer) (n t : Nat) : List Span :=
  match opSpans ctx tr n t with
  | [m, s, c, p] => [m, c, s, p]
  | l => l

/-- The calls one call of `Operation` records; `ps` is the state of the span the
caller's carrier refers to. -/
def opCalls (ctx : Carrier) (ps : Option SpanState) (n : Nat) : List Call :=
  let sub : Carrier := { activeSpanRef := some n, baggage := ctx.baggage }
  [.start .Running ctx "Main operation" ps (some n),
   .spanEnd (some n) (some .Open),
   .start .Running sub "Sub operation..." (some .Closed) (some (n + 1)),
   .setAttributes (some (n + 1)) lemonsKey (.str "five") (some .Open),
   .addEvent (some (n + 1)) "Sub span event" (some .Open),
   .sleep 15,
   .start .Running sub "Sub child operation..." (some .Closed) (some (n + 2)),
   .setAttributes (some (n + 2)) lemonsKey (.str "five") (some .Open),
   .addEvent (some (n + 2)) "Sub child span event" (some .Open),
   .sleep 10,
   .spanEnd (some (n + 2)) (some .Open),
   .spanEnd (some (n + 1)) (some .Open),
   .start .Running sub "Peer operation..." (some .Closed) (some (n + 3)),
   .setAttributes (some (n + 3)) lemonsKey (.str "five") (some .Open),
   .addEvent (some (n + 3)) "Peer span event" (some .Open),
   .sleep 5,
   .spanEnd (some (n + 3)) (some .Open)]

/-- The tracer `main` obtains from the provider. -/
def mainTracer : Tracer :=
  { name := "example/namedtracer/main" }

/-- The state in which `main` enters its loop when `initTracer` succeeded. -/
def loopEntry : World :=
  (getTracer "example/namedtracer/main" (initTracer none World.init).2).2

/-! ## Running the program on an arbitrary state -/

theorem getElem?_append_add {α : Type} (ss l : List α) (k : Nat) :
    (ss ++ l)[ss.length + k]? = l[k]? := by
  rw [List.getElem?_append_right (Nat.le_add_right _ _)]
  simp

theorem getElem?_append_len {α : Type} (ss l : List α) :
    (ss ++ l)[ss.length]? = l[0]? := by
  have h := getElem?_append_add ss l 0
  rwa [Nat.add_zero] at h

theorem set_append_add {α : Type} (ss l : List α) (k : Nat) (x : α) :
    (ss ++ l).set (ss.length + k) x = ss ++ l.set k x := by
  rw [List.set_append]
  simp

theorem set_append_len {α : Type} (ss l : List α) (x : α) :
    (ss ++ l).set ss.length x = ss ++ l.set 0 x := by
  have h := set_append_add ss l 0 x
  rwa [Nat.add_zero] at h

/-- One call of `Operation` under a running provider, in closed form. -/
theorem Operation_running (ctx : Carrier) (tr : Tracer) (w : World)
    (h : w.provider = .Running) :
    Operation ctx tr w =
      (.ok (),
        { provider := .Running, now := w.now + 30,
          spans := w.spans ++ opSpans ctx tr w.spans.length w.now,
          pending := w.pending ++ opPending ctx tr w.spans.length w.now,
          drained := w.drained,
          trace := w.trace ++ opCalls ctx (w.stateOf ctx.activeSpanRef) w.spans.length }) := by
  obtain ⟨p, now, ss, pend, dr, t⟩ := w
  simp only at h
  subst h
  simp only [Operation, SubOperation, SubChildOperation, PeerOperation, Tracer.Start, End,
    SetAttributes, AddEvent, Sleep, World.stateOf, getElem?_append_add, getElem?_append_len,
    set_append_add, set_append_len, setAttr, List.append_assoc, List.length_append,
    List.length_cons, List.length_nil, List.getElem?_cons_zero, List.getElem?_cons_succ,
    List.set_cons_zero, List.set_cons_succ, List.singleton_append, List.cons_append,
    List.nil_append, Option.map_some', Nat.zero_add, Nat.reduceAdd, Nat.add_assoc,
    List.filter_nil, opSpans, opPending, opCalls]

/-- Reordering of the closed spans into the order of the store. -/
theorem opPending_perm (ctx : Carrier) (tr : Tracer) (n t : Nat) :
    (opPending ctx tr n t).Perm (opSpans ctx tr n t) := by
  simp only [opPending, opSpans]
  exact List.Perm.cons _ (List.Perm.swap _ _ _)

/-- The provider is Running when `main` enters its loop. -/
theorem loopEntry_running : loopEntry.provider = .Running := rfl

/-- One iteration of the loop of `main` under a running provider: a call of
`Operation`, which does not panic, the pause of 50 ms, and the rest of the loop. -/
theorem mainLoop_succ (ctx : Carrier) (tr : Tracer) (k : Nat) (w : World)
    (h : w.provider = .Running) :
    mainLoop ctx tr (k + 1) w = mainLoop ctx tr k (Sleep 50 (Operation ctx tr w).2) := by
  rw [mainLoop, Operation_running ctx tr w h]

/-- The provider is still Running after one iteration of the loop of `main`. -/
theorem iteration_running (ctx : Carrier) (tr : Tracer) (w : World)
    (h : w.provider = .Running) :
    (Sleep 50 (Operation ctx tr w).2).provider = .Running := by
  rw [Operation_running ctx tr w h]
  rfl

/-- The loop of `main` under a running provider: after any number of iterations it
is still looping, the provider is still Running, nothing was drained, and the calls
it recorded are no lifecycle calls. -/
theorem mainLoop_running (ctx : Carrier) (tr : Tracer) (n : Nat) :
    ∀ w : World, w.provider = .Running →
      ∃ delta : List Call,
        (mainLoop ctx tr n w).1 = .looping ∧
        (mainLoop ctx tr n w).2.provider = .Running ∧
        (mainLoop ctx tr n w).2.trace = w.trace ++ delta ∧
        (mainLoop ctx tr n w).2.drained = w.drained ∧
        (mainLoop ctx tr n w).2.spans.length = w.spans.length + 4 * n ∧
        (mainLoop ctx tr n w).2.pending.length = w.pending.length + 4 * n ∧
        (∀ c ∈ delta, c.isLifecycle = false) ∧
        (∀ c ∈ startCalls delta, c.provider = .Running ∧ c.span.isSome = true) ∧
        (startCalls delta).length = 4 * n ∧
        ((startCalls delta).filter (fun c => c.name == "Main operation")).length = n := by
  induction n with
  | zero =>
    intro w h
    exact ⟨[], rfl, h, by simp [mainLoop], rfl, rfl, rfl, by simp, by simp [startCalls],
      by simp [startCalls], by simp [startCalls]⟩
  | succ n ih =>
    intro w h
    obtain ⟨d, h1, h2, h3, h4, h5, h6, h7, h8, h9, h10⟩ :=
      ih (Sleep 50 (Operation ctx tr w).2) (iteration_running ctx tr w h)
    rw [mainLoop_succ ctx tr n w h]
    refine ⟨opCalls ctx (w.stateOf ctx.activeSpanRef) w.spans.length ++ [.sleep 50] ++ d,
      h1, h2, ?_, ?_, ?_, ?_, ?_, ?_, ?_, ?_⟩
    · rw [h3, Operation_running ctx tr w h]
      simp [Sleep]
    · rw [h4, Operation_running ctx tr w h]
      rfl
    · rw [h5, Operation_running ctx tr w h]
      simp [Sleep, opSpans]
      omega
    · rw [h6, Operation_running ctx tr w h]
      simp [Sleep, opPending, opSpans]
      omega
    · intro c hc
      rw [List.mem_append, List.mem_append] at hc
      rcases hc with (hc | hc) | hc
      · simp only [opCalls, List.mem_cons, List.mem_singleton, List.not_mem_nil,
          or_false] at hc
        rcases hc with rfl | rfl | rfl | rfl | rfl | rfl | rfl | rfl | rfl | rfl | rfl | rfl |
          rfl | rfl | rfl | rfl | rfl <;> rfl
      · rw [List.mem_singleton] at hc
        subst hc
        rfl
      · exact h7 c hc
    · intro c hc
      simp only [startCalls, List.filterMap_append] at hc
      rw [List.mem_append, List.mem_append] at hc
      rcases hc with (hc | hc) | hc
      · simp only [opCalls, Call.asStart, List.filterMap_cons, List.filterMap_nil,
          List.mem_cons, List.mem_singleton, List.not_mem_nil, or_false] at hc
        rcases hc with rfl | rfl | rfl | rfl <;> exact ⟨rfl, rfl⟩
      · simp [Call.asStart] at hc
      · exact h8 c hc
    · simp only [startCalls, List.filterMap_append, List.length_append] at h9 ⊢
      rw [h9]
      simp [opCalls, Call.asStart]
      omega
    · simp only [startCalls, List.filterMap_append, List.filter_append,
        List.length_append] at h10 ⊢
      rw [h10]
      simp [opCalls, Call.asStart]
      omega

/-- Following the loop of `main` one iteration further only extends the trace. -/
theorem mainLoop_trace_extends (ctx : Carrier) (tr : Tracer) (n : Nat) :
    ∀ w : World, w.provider = .Running →
      ∃ more : List Call,
        (mainLoop ctx tr n w).2.trace ++ more = (mainLoop ctx tr (n + 1) w).2.trace := by
  induction n with
  | zero =>
    intro w h
    refine ⟨opCalls ctx (w.stateOf ctx.activeSpanRef) w.spans.length ++ [.sleep 50], ?_⟩
    rw [mainLoop_succ ctx tr 0 w h, Operation_running ctx tr w h]
    simp [mainLoop, Sleep]
  | succ n ih =>
    intro w h
    rw [mainLoop_succ ctx tr (n + 1) w h, mainLoop_succ ctx tr n w h]
    exact ih _ (iteration_running ctx tr w h)

/-- When `initTracer` succeeds, `main` is the loop entered at `loopEntry`. -/
theorem main_of_init_ok (fuel : Nat) :
    main none fuel = (.looping, (mainLoop mainCarrier mainTracer fuel loopEntry).2) := by
  obtain ⟨d, h1, -⟩ := mainLoop_running mainCarrier mainTracer fuel loopEntry loopEntry_running
  have hm : main none fuel =
      (match mainLoop mainCarrier mainTracer fuel loopEntry with
        | (.looping, w) => (Outcome.looping, w)
        | (.panicked err, w) => (.panicked err, Shutdown w)
        | (.returned, w) => (.returned, Shutdown w)) := rfl
  rw [hm]
  generalize mainLoop mainCarrier mainTracer fuel loopEntry = r at h1
  obtain ⟨o, w⟩ := r
  simp only at h1
  subst h1
  rfl

/-- When the exporter cannot be built, `main` panics right after `initTracer`. -/
theorem main_of_init_error (err : String) (fuel : Nat) :
    main (some err) fuel =
      (.panicked ("failed to initialize httptrace exporter: " ++ err),
        { World.init with trace := [.initTracer false] }) := rfl

/-- When `initTracer` succeeds, the trace of `main` starts with the calls of
`initTracer` and `Tracer` and goes on with calls that are no lifecycle calls and
whose `Start` calls find the provider Running. -/
theorem main_trace_of_init_ok (fuel : Nat) :
    ∃ delta : List Call,
      (main none fuel).2.trace =
        [.initTracer true, .getTracer "example/namedtracer/main"] ++ delta ∧
      (∀ c ∈ delta, c.isLifecycle = false) ∧
      (∀ c ∈ startCalls delta, c.provider = .Running ∧ c.span.isSome = true) ∧
      (startCalls delta).length = 4 * fuel ∧
      ((startCalls delta).filter (fun c => c.name == "Main operation")).length = fuel := by
  obtain ⟨d, -, -, h3, -, -, -, h7, h8, h9, h10⟩ :=
    mainLoop_running mainCarrier mainTracer fuel loopEntry loopEntry_running
  refine ⟨d, ?_, h7, h8, h9, h10⟩
  rw [main_of_init_ok, h3]
  rfl

/-! ## One call of `Operation` -/

/-- C1: for every carrier and every state with a running provider, one call of
`Operation` returns without panic after exactly four `Start` calls, named
"Main operation", "Sub operation...", "Sub child operation..." and
"Peer operation...", each yielding a new span of the store; the `End` calls of the
run are made on exactly these four spans, on none twice, each finding its span Open;
all four spans are Closed in the end; and the pending queue of the batch buffer grows
by exactly these four spans, none appearing twice. -/
theorem C1_operation_starts_and_ends_four_spans (ctx : Carrier) (tr : Tracer) (w : World)
    (h : w.provider = .Running) :
    (Operation ctx tr w).1 = .ok () ∧
    (startCalls (w.callsSince (Operation ctx tr w).2)).map StartCall.name =
      ["Main operation", "Sub operation...", "Sub child operation...",
        "Peer operation..."] ∧
    (Operation ctx tr w).2.spans = w.spans ++ w.spansSince (Operation ctx tr w).2 ∧
    (startCalls (w.callsSince (Operation ctx tr w).2)).map StartCall.span =
      (w.spansSince (Operation ctx tr w).2).map (fun s => some s.id) ∧
    (w.spansSince (Operation ctx tr w).2).map Span.name =
      ["Main operation", "Sub operation...", "Sub child operation...",
        "Peer operation..."] ∧
    ((endCalls (w.callsSince (Operation ctx tr w).2)).map Prod.fst).Perm
      ((startCalls (w.callsSince (Operation ctx tr w).2)).map StartCall.span) ∧
    ((endCalls (w.callsSince (Operation ctx tr w).2)).map Prod.fst).Nodup ∧
    (∀ e ∈ endCalls (w.callsSince (Operation ctx tr w).2), e.2 = some .Open) ∧
    (∀ s ∈ w.spansSince (Operation ctx tr w).2, s.state = .Closed) ∧
    (Operation ctx tr w).2.pending = w.pending ++ w.pendingSince (Operation ctx tr w).2 ∧
    (w.pendingSince (Operation ctx tr w).2).length = 4 ∧
    ((w.pendingSince (Operation ctx tr w).2).map Span.id).Nodup ∧
    (w.pendingSince (Operation ctx tr w).2).Perm (w.spansSince (Operation ctx tr w).2) := by
  rw [Operation_running ctx tr w h]
  simp only [World.callsSince, World.spansSince, World.pendingSince, List.drop_left]
  refine ⟨trivial, ?_, trivial, ?_, ?_, ?_, ?_, ?_, ?_, trivial, ?_, ?_,
    opPending_perm _ _ _ _⟩
  · simp [opCalls, startCalls, Call.asStart]
  · simp [opCalls, startCalls, Call.asStart, opSpans]
  · simp [opSpans]
  · simp only [opCalls, startCalls, endCalls, Call.asStart, Call.asEnd, List.filterMap_cons,
      List.filterMap_nil, List.map_cons, List.map_nil]
    exact List.Perm.cons _ (List.Perm.swap _ _ _)
  · simp [opCalls, endCalls, Call.asEnd]
  · simp [opCalls, endCalls, Call.asEnd]
  · simp [opSpans]
  · simp [opPending, opSpans]
  · simp [opPending, opSpans]

/-- C1 on the first call of `Operation` that `main` makes. -/
theorem C1_operation_starts_and_ends_four_spans_witness :
    loopEntry.provider = .Running ∧
    ((Operation mainCarrier mainTracer loopEntry).1 = .ok () ∧
    (startCalls (loopEntry.callsSince
        (Operation mainCarrier mainTracer loopEntry).2)).map StartCall.name =
      ["Main operation", "Sub operation...", "Sub child operation...",
        "Peer operation..."] ∧
    (Operation mainCarrier mainTracer loopEntry).2.spans =
      loopEntry.spans ++ loopEntry.spansSince (Operation mainCarrier mainTracer loopEntry).2 ∧
    (startCalls (loopEntry.callsSince
        (Operation mainCarrier mainTracer loopEntry).2)).map StartCall.span =
      (loopEntry.spansSince (Operation mainCarrier mainTracer loopEntry).2).map
        (fun s => some s.id) ∧
    (loopEntry.spansSince (Operation mainCarrier mainTracer loopEntry).2).map Span.name =
      ["Main operation", "Sub operation...", "Sub child operation...",
        "Peer operation..."] ∧
    ((endCalls (loopEntry.callsSince
        (Operation mainCarrier mainTracer loopEntry).2)).map Prod.fst).Perm
      ((startCalls (loopEntry.callsSince
        (Operation mainCarrier mainTracer loopEntry).2)).map StartCall.span) ∧
    ((endCalls (loopEntry.callsSince
        (Operation mainCarrier mainTracer loopEntry).2)).map Prod.fst).Nodup ∧
    (∀ e ∈ endCalls (loopEntry.callsSince (Operation mainCarrier mainTracer loopEntry).2),
      e.2 = some .Open) ∧
    (∀ s ∈ loopEntry.spansSince (Operation mainCarrier mainTracer loopEntry).2,
      s.state = .Closed) ∧
    (Operation mainCarrier mainTracer loopEntry).2.pending =
      loopEntry.pending ++
        loopEntry.pendingSince (Operation mainCarrier mainTracer loopEntry).2 ∧
    (loopEntry.pendingSince (Operation mainCarrier mainTracer loopEntry).2).length = 4 ∧
    ((loopEntry.pendingSince (Operation mainCarrier mainTracer loopEntry).2).map
      Span.id).Nodup ∧
    (loopEntry.pendingSince (Operation mainCarrier mainTracer loopEntry).2).Perm
      (loopEntry.spansSince (Operation mainCarrier mainTracer loopEntry).2)) :=
  ⟨rfl, C1_operation_starts_and_ends_four_spans mainCarrier mainTracer loopEntry rfl⟩

/-! ## Parent linkage -/

/-- C2, evaluated on the first call of `Operation` that `main` makes: the span
"Sub child operation..." gets as parent the identifier 0 of "Main operation", while
"Sub operation..." has identifier 1. -/
theorem C2_sub_child_parent_is_main_operation :
    (spanNamed (loopEntry.spansSince (Operation mainCarrier mainTracer loopEntry).2)
        "Sub child operation...").map Span.parent = some (some 0) ∧
    (spanNamed (loopEntry.spansSince (Operation mainCarrier mainTracer loopEntry).2)
        "Sub operation...").map Span.id = some 1 ∧
    (spanNamed (loopEntry.spansSince (Operation mainCarrier mainTracer loopEntry).2)
        "Main operation").map Span.id = some 0 := by
  decide

/-- C3 as stated fails: on the first call of `Operation` that `main` makes, with a
carrier that has no active span, it is not the case that every span named
"Sub operation..." or "Peer operation..." has no parent. -/
theorem C3_counterexample :
    ¬ (mainCarrier.activeSpanRef = none →
        ∀ s ∈ loopEntry.spansSince (Operation mainCarrier mainTracer loopEntry).2,
          s.name = "Sub operation..." ∨ s.name = "Peer operation..." → s.parent = none) := by
  decide

/-- C3 as amended: for every carrier and every state with a running provider, the
spans "Sub operation..." and "Peer operation..." of one call of `Operation` both have
as parent the identifier of the span "Main operation" of the same call, and the
`Start` call of each found that parent already Closed. -/
theorem C3_sub_and_peer_parent_is_main_operation (ctx : Carrier) (tr : Tracer) (w : World)
    (h : w.provider = .Running) :
    (∃ m s p,
      spanNamed (w.spansSince (Operation ctx tr w).2) "Main operation" = some m ∧
      spanNamed (w.spansSince (Operation ctx tr w).2) "Sub operation..." = some s ∧
      spanNamed (w.spansSince (Operation ctx tr w).2) "Peer operation..." = some p ∧
      m.state = .Closed ∧ s.parent = some m.id ∧ p.parent = some m.id) ∧
    (∀ c ∈ startCalls (w.callsSince (Operation ctx tr w).2),
      c.name = "Sub operation..." ∨ c.name = "Peer operation..." →
        c.carrier.activeSpanRef = some w.spans.length ∧ c.parentState = some .Closed) := by
  rw [Operation_running ctx tr w h]
  simp only [World.callsSince, World.spansSince, List.drop_left]
  constructor
  · simp [spanNamed, opSpans]
  · simp [startCalls, opCalls, Call.asStart]

/-- C3 as amended, on the first call of `Operation` that `main` makes. -/
theorem C3_sub_and_peer_parent_is_main_operation_witness :
    loopEntry.provider = .Running ∧
    ((∃ m s p,
      spanNamed (loopEntry.spansSince (Operation mainCarrier mainTracer loopEntry).2)
        "Main operation" = some m ∧
      spanNamed (loopEntry.spansSince (Operation mainCarrier mainTracer loopEntry).2)
        "Sub operation..." = some s ∧
      spanNamed (loopEntry.spansSince (Operation mainCarrier mainTracer loopEntry).2)
        "Peer operation..." = some p ∧
      m.state = .Closed ∧ s.parent = some m.id ∧ p.parent = some m.id) ∧
    (∀ c ∈ startCalls (loopEntry.callsSince (Operation mainCarrier mainTracer loopEntry).2),
      c.name = "Sub operation..." ∨ c.name = "Peer operation..." →
        c.carrier.activeSpanRef = some loopEntry.spans.length ∧
          c.parentState = some .Closed)) :=
  ⟨rfl, C3_sub_and_peer_parent_is_main_operation mainCarrier mainTracer loopEntry rfl⟩

/-- C4: for every carrier and every state with a running provider, one call of
`Operation` makes four `Start` calls; each of them yields a recording span whose
parent is exactly the active span reference of the carrier handed to that call
(present if and only if the reference is present, and equal to it), and
"Main operation" is a root when the caller's carrier has no active span. -/
theorem C4_parent_is_active_span_of_carrier (ctx : Carrier) (tr : Tracer) (w : World)
    (h : w.provider = .Running) :
    (startCalls (w.callsSince (Operation ctx tr w).2)).length = 4 ∧
    (∀ c ∈ startCalls (w.callsSince (Operation ctx tr w).2),
      ∃ id s, c.span = some id ∧ (Operation ctx tr w).2.spans[id]? = some s ∧
        s.name = c.name ∧ s.parent = c.carrier.activeSpanRef ∧
        (s.parent.isSome = c.carrier.activeSpanRef.isSome) ∧
        (∀ p, c.carrier.activeSpanRef = some p → s.parent = some p)) ∧
    (ctx.activeSpanRef = none →
      ∃ m, spanNamed (w.spansSince (Operation ctx tr w).2) "Main operation" = some m ∧
        m.parent = none) := by
  rw [Operation_running ctx tr w h]
  simp only [World.callsSince, World.spansSince, List.drop_left]
  refine ⟨?_, ?_, ?_⟩
  · simp [startCalls, opCalls, Call.asStart]
  · simp only [startCalls, opCalls, Call.asStart, List.filterMap_cons, List.filterMap_nil,
      List.mem_cons, List.mem_singleton, List.not_mem_nil, or_false]
    rintro c (rfl | rfl | rfl | rfl)
    · exact ⟨_, _, rfl, by rw [getElem?_append_len]; rfl, rfl, rfl, rfl, fun _ hp => hp⟩
    · exact ⟨_, _, rfl, by rw [getElem?_append_add]; rfl, rfl, rfl, rfl, fun _ hp => hp⟩
    · exact ⟨_, _, rfl, by rw [getElem?_append_add]; rfl, rfl, rfl, rfl, fun _ hp => hp⟩
    · exact ⟨_, _, rfl, by rw [getElem?_append_add]; rfl, rfl, rfl, rfl, fun _ hp => hp⟩
  · intro hc
    simp [spanNamed, opSpans, hc]

/-- C4 on the first call of `Operation` that `main` makes. -/
theorem C4_parent_is_active_span_of_carrier_witness :
    loopEntry.provider = .Running ∧
    ((startCalls (loopEntry.callsSince
        (Operation mainCarrier mainTracer loopEntry).2)).length = 4 ∧
    (∀ c ∈ startCalls (loopEntry.callsSince (Operation mainCarrier mainTracer loopEntry).2),
      ∃ id s, c.span = some id ∧
        (Operation mainCarrier mainTracer loopEntry).2.spans[id]? = some s ∧
        s.name = c.name ∧ s.parent = c.carrier.activeSpanRef ∧
        (s.parent.isSome = c.carrier.activeSpanRef.isSome) ∧
        (∀ p, c.carrier.activeSpanRef = some p → s.parent = some p)) ∧
    (mainCarrier.activeSpanRef = none →
      ∃ m, spanNamed (loopEntry.spansSince (Operation mainCarrier mainTracer loopEntry).2)
          "Main operation" = some m ∧
        m.parent = none)) :=
  ⟨rfl, C4_parent_is_active_span_of_carrier mainCarrier mainTracer loopEntry rfl⟩

/-- C5 as stated fails: on the first call of `Operation` that `main` makes, it is
not the case that every `Start` call whose new span has a parent found that parent
Open (`parentState` is the state in which the `Start` call found the span its
carrier refers to, which is the parent of the new span). -/
theorem C5_counterexample :
    ¬ (∀ c ∈ startCalls (loopEntry.callsSince (Operation mainCarrier mainTracer loopEntry).2),
        ∀ s ∈ loopEntry.spansSince (Operation mainCarrier mainTracer loopEntry).2,
          c.span = some s.id → s.parent ≠ none → c.parentState = some .Open) := by
  decide

/-- C5 as amended: when the provider is running and the caller's carrier refers, if
to anything, to a span of the store, the parent of every span started by one call of
`Operation`, if present, is a span that had been started before the new one and was
Open or Closed at that moment; the `Start` calls of "Sub operation..." and
"Peer operation..." find their parent Closed. -/
theorem C5_parent_started_before_possibly_closed (ctx : Carrier) (tr : Tracer) (w : World)
    (h : w.provider = .Running)
    (hc : ∀ p, ctx.activeSpanRef = some p → p < w.spans.length) :
    (∀ c ∈ startCalls (w.callsSince (Operation ctx tr w).2),
      ∀ s ∈ w.spansSince (Operation ctx tr w).2,
        c.span = some s.id → ∀ p, s.parent = some p →
          c.parentState.isSome = true ∧ p < s.id) ∧
    (∀ c ∈ startCalls (w.callsSince (Operation ctx tr w).2),
      c.name = "Sub operation..." ∨ c.name = "Peer operation..." →
        c.parentState = some .Closed) := by
  rw [Operation_running ctx tr w h]
  simp only [World.callsSince, World.spansSince, List.drop_left]
  constructor
  · simp only [startCalls, opCalls, opSpans, Call.asStart, List.filterMap_cons,
      List.filterMap_nil, List.mem_cons, List.mem_singleton, List.not_mem_nil, or_false]
    rintro c (rfl | rfl | rfl | rfl) s (rfl | rfl | rfl | rfl) hid p hp <;>
      simp only [Option.some.injEq] at hid hp <;>
      first
        | (change (_ : Nat) = _ at hid
           omega)
        | (subst hp
           refine ⟨rfl, ?_⟩
           show w.spans.length < w.spans.length + _
           exact Nat.lt_add_of_pos_right (by decide))
        | (have hlt := hc p hp
           refine ⟨?_, hlt⟩
           simp [World.stateOf, hp, hlt])
  · simp [startCalls, opCalls, Call.asStart]

/-- C5 as amended, on a second call of `Operation` whose carrier refers to the span
"Main operation" of the first call. -/
theorem C5_parent_started_before_possibly_closed_witness :
    (Operation mainCarrier mainTracer loopEntry).2.provider = .Running ∧
    (∀ p, (⟨some 0, []⟩ : Carrier).activeSpanRef = some p →
      p < (Operation mainCarrier mainTracer loopEntry).2.spans.length) ∧
    ((∀ c ∈ startCalls ((Operation mainCarrier mainTracer loopEntry).2.callsSince
          (Operation ⟨some 0, []⟩ mainTracer (Operation mainCarrier mainTracer loopEntry).2).2),
      ∀ s ∈ (Operation mainCarrier mainTracer loopEntry).2.spansSince
          (Operation ⟨some 0, []⟩ mainTracer (Operation mainCarrier mainTracer loopEntry).2).2,
        c.span = some s.id → ∀ p, s.parent = some p →
          c.parentState.isSome = true ∧ p < s.id) ∧
    (∀ c ∈ startCalls ((Operation mainCarrier mainTracer loopEntry).2.callsSince
          (Operation ⟨some 0, []⟩ mainTracer (Operation mainCarrier mainTracer loopEntry).2).2),
      c.name = "Sub operation..." ∨ c.name = "Peer operation..." →
        c.parentState = some .Closed)) :=
  ⟨rfl, by decide,
    C5_parent_started_before_possibly_closed ⟨some 0, []⟩ mainTracer
      (Operation mainCarrier mainTracer loopEntry).2 rfl (by decide)⟩

/-! ## Attributes, events and the order of arrival in the batch buffer -/

/-- C6: for every carrier and every state with a running provider, the batch buffer
receives from one call of `Operation` the spans "Sub operation...",
"Sub child operation..." and "Peer operation..." Closed, each with the attribute
`ex.com/lemons` = "five" as its only attribute and with exactly one event, and the
span "Main operation" Closed with no attribute and no event; each of the six
`SetAttributes` and `AddEvent` calls found its span Open. -/
theorem C6_closed_spans_carry_lemons_and_one_event (ctx : Carrier) (tr : Tracer) (w : World)
    (h : w.provider = .Running) :
    lemonsKey = "ex.com/lemons" ∧
    (∀ name ∈ ["Main operation", "Sub operation...", "Sub child operation...",
        "Peer operation..."],
      ∃ s, spanNamed (w.pendingSince (Operation ctx tr w).2) name = some s) ∧
    (∀ s ∈ w.pendingSince (Operation ctx tr w).2,
      s.name = "Sub operation..." ∨ s.name = "Sub child operation..." ∨
          s.name = "Peer operation..." →
        s.state = .Closed ∧ getAttr s.attributes lemonsKey = some (.str "five") ∧
          s.attributes.length = 1 ∧ s.events.length = 1) ∧
    (∀ s ∈ w.pendingSince (Operation ctx tr w).2,
      s.name = "Main operation" → s.state = .Closed ∧ s.attributes = [] ∧ s.events = []) ∧
    (mutationCalls (w.callsSince (Operation ctx tr w).2)).length = 6 ∧
    (∀ m ∈ mutationCalls (w.callsSince (Operation ctx tr w).2), m.2 = some .Open) ∧
    (w.pendingSince (Operation ctx tr w).2).Perm (w.spansSince (Operation ctx tr w).2) := by
  rw [Operation_running ctx tr w h]
  simp only [World.callsSince, World.spansSince, World.pendingSince, List.drop_left]
  refine ⟨rfl, ?_, ?_, ?_, ?_, ?_, opPending_perm _ _ _ _⟩
  · simp [spanNamed, opPending, opSpans]
  · simp [opPending, opSpans, getAttr]
  · simp [opPending, opSpans]
  · simp [mutationCalls, opCalls, Call.asMutation]
  · simp [mutationCalls, opCalls, Call.asMutation]

/-- C6 on the first call of `Operation` that `main` makes. -/
theorem C6_closed_spans_carry_lemons_and_one_event_witness :
    loopEntry.provider = .Running ∧
    (lemonsKey = "ex.com/lemons" ∧
    (∀ name ∈ ["Main operation", "Sub operation...", "Sub child operation...",
        "Peer operation..."],
      ∃ s, spanNamed (loopEntry.pendingSince (Operation mainCarrier mainTracer loopEntry).2)
        name = some s) ∧
    (∀ s ∈ loopEntry.pendingSince (Operation mainCarrier mainTracer loopEntry).2,
      s.name = "Sub operation..." ∨ s.name = "Sub child operation..." ∨
          s.name = "Peer operation..." →
        s.state = .Closed ∧ getAttr s.attributes lemonsKey = some (.str "five") ∧
          s.attributes.length = 1 ∧ s.events.length = 1) ∧
    (∀ s ∈ loopEntry.pendingSince (Operation mainCarrier mainTracer loopEntry).2,
      s.name = "Main operation" → s.state = .Closed ∧ s.attributes = [] ∧ s.events = []) ∧
    (mutationCalls (loopEntry.callsSince
      (Operation mainCarrier mainTracer loopEntry).2)).length = 6 ∧
    (∀ m ∈ mutationCalls (loopEntry.callsSince (Operation mainCarrier mainTracer loopEntry).2),
      m.2 = some .Open) ∧
    (loopEntry.pendingSince (Operation mainCarrier mainTracer loopEntry).2).Perm
      (loopEntry.spansSince (Operation mainCarrier mainTracer loopEntry).2)) :=
  ⟨rfl, C6_closed_spans_carry_lemons_and_one_event mainCarrier mainTracer loopEntry rfl⟩

/-- C7: for every carrier and every state with a running provider, one call of
`Operation` appends to the pending queue of the batch buffer, after what was there,
the spans "Main operation", "Sub child operation...", "Sub operation..." and
"Peer operation..." in this order, which is the order of the `End` calls that
closed them. -/
theorem C7_enqueue_order_is_close_order (ctx : Carrier) (tr : Tracer) (w : World)
    (h : w.provider = .Running) :
    (Operation ctx tr w).2.pending = w.pending ++ w.pendingSince (Operation ctx tr w).2 ∧
    (w.pendingSince (Operation ctx tr w).2).map Span.name =
      ["Main operation", "Sub child operation...", "Sub operation...",
        "Peer operation..."] ∧
    (endCalls (w.callsSince (Operation ctx tr w).2)).map Prod.fst =
      (w.pendingSince (Operation ctx tr w).2).map (fun s => some s.id) ∧
    (∀ e ∈ endCalls (w.callsSince (Operation ctx tr w).2), e.2 = some .Open) ∧
    (∀ s ∈ w.pendingSince (Operation ctx tr w).2, s.state = .Closed) := by
  rw [Operation_running ctx tr w h]
  simp only [World.callsSince, World.pendingSince, List.drop_left]
  refine ⟨trivial, ?_, ?_, ?_, ?_⟩
  · simp [opPending, opSpans]
  · simp [endCalls, opCalls, Call.asEnd, opPending, opSpans]
  · simp [endCalls, opCalls, Call.asEnd]
  · simp [opPending, opSpans]

/-- C7 on the first call of `Operation` that `main` makes. -/
theorem C7_enqueue_order_is_close_order_witness :
    loopEntry.provider = .Running ∧
    ((Operation mainCarrier mainTracer loopEntry).2.pending =
      loopEntry.pending ++
        loopEntry.pendingSince (Operation mainCarrier mainTracer loopEntry).2 ∧
    (loopEntry.pendingSince (Operation mainCarrier mainTracer loopEntry).2).map Span.name =
      ["Main operation", "Sub child operation...", "Sub operation...",
        "Peer operation..."] ∧
    (endCalls (loopEntry.callsSince
        (Operation mainCarrier mainTracer loopEntry).2)).map Prod.fst =
      (loopEntry.pendingSince (Operation mainCarrier mainTracer loopEntry).2).map
        (fun s => some s.id) ∧
    (∀ e ∈ endCalls (loopEntry.callsSince (Operation mainCarrier mainTracer loopEntry).2),
      e.2 = some .Open) ∧
    (∀ s ∈ loopEntry.pendingSince (Operation mainCarrier mainTracer loopEntry).2,
      s.state = .Closed)) :=
  ⟨rfl, C7_enqueue_order_is_close_order mainCarrier mainTracer loopEntry rfl⟩

/-! ## Baggage -/

/-- The calls one call of `Operation` records when the provider is not running:
every `Start` call still receives a carrier with the caller's baggage. -/
theorem Operation_start_carriers (ctx : Carrier) (tr : Tracer) (w : World) :
    (startCalls (w.callsSince (Operation ctx tr w).2)).map
        (fun c => (c.name, c.carrier.baggage)) =
      [("Main operation", ctx.baggage), ("Sub operation...", ctx.baggage),
        ("Sub child operation...", ctx.baggage), ("Peer operation...", ctx.baggage)] := by
  by_cases h : w.provider = .Running
  · rw [Operation_running ctx tr w h]
    simp [World.callsSince, startCalls, opCalls, Call.asStart]
  · obtain ⟨p, now, ss, pend, dr, t⟩ := w
    cases p
    · simp [Operation, SubOperation, SubChildOperation, PeerOperation, Tracer.Start, End,
        SetAttributes, AddEvent, Sleep, World.stateOf, World.callsSince, startCalls,
        Call.asStart]
    · exact absurd rfl h
    · simp [Operation, SubOperation, SubChildOperation, PeerOperation, Tracer.Start, End,
        SetAttributes, AddEvent, Sleep, World.stateOf, World.callsSince, startCalls,
        Call.asStart]

/-- C9: the carrier `main` builds returns "foo1" for `ex.com/foo` and "bar1" for
`ex.com/bar`; `Tracer.Start` hands the baggage of its carrier on to the derived
carrier; and in every state each of the four `Start` calls of one call of
`Operation` on that carrier receives a carrier that returns "foo1" and "bar1" for
those keys. -/
theorem C9_baggage_reaches_every_start (tr : Tracer) (w : World) :
    fooKey = "ex.com/foo" ∧ barKey = "ex.com/bar" ∧
    mainCarrier.baggageValue fooKey = some "foo1" ∧
    mainCarrier.baggageValue barKey = some "bar1" ∧
    (∀ (c : Carrier) (name : String), (tr.Start c name w).1.baggage = c.baggage) ∧
    (startCalls (w.callsSince (Operation mainCarrier tr w).2)).map StartCall.name =
      ["Main operation", "Sub operation...", "Sub child operation...",
        "Peer operation..."] ∧
    (∀ c ∈ startCalls (w.callsSince (Operation mainCarrier tr w).2),
      c.carrier.baggageValue fooKey = some "foo1" ∧
        c.carrier.baggageValue barKey = some "bar1") := by
  have hc := Operation_start_carriers mainCarrier tr w
  refine ⟨rfl, rfl, by decide, by decide, ?_, ?_, ?_⟩
  · intro c name
    unfold Tracer.Start
    split <;> rfl
  · have h := congrArg (List.map Prod.fst) hc
    simpa [List.map_map, Function.comp_def] using h
  · intro c hmem
    have h : c.carrier.baggage = mainCarrier.baggage := by
      have hm : (c.name, c.carrier.baggage) ∈
          (startCalls (w.callsSince (Operation mainCarrier tr w).2)).map
            (fun c => (c.name, c.carrier.baggage)) := List.mem_map_of_mem _ hmem
      rw [hc] at hm
      simp only [List.mem_cons, Prod.mk.injEq, List.mem_singleton, List.not_mem_nil,
        or_false] at hm
      rcases hm with h | h | h | h <;> exact h.2
    simp only [Carrier.baggageValue, h]
    constructor <;> decide

/-! ## The run of `main` -/

/-- C8: in every run of `main`, whatever the exporter constructor returns and however
long the loop is followed, `initTracer` is called exactly once and is the first call
of the run; every `Start` call finds the provider Running and yields a recording
span; a run in which `initTracer` returns an error panics with that error without
starting any span; a run in which it succeeds makes four `Start` calls per
iteration; and no `Start` call comes after a `Shutdown` call. -/
theorem C8_spans_started_only_while_running (expErr : Option String) (fuel : Nat) :
    ((main expErr fuel).2.trace.filter Call.isInit).length = 1 ∧
    (main expErr fuel).2.trace.head? = some (.initTracer expErr.isNone) ∧
    (∀ c ∈ startCalls (main expErr fuel).2.trace,
      c.provider = .Running ∧ c.span.isSome = true) ∧
    (∀ err, expErr = some err →
      (main expErr fuel).1 =
          .panicked ("failed to initialize httptrace exporter: " ++ err) ∧
        startCalls (main expErr fuel).2.trace = [] ∧ (main expErr fuel).2.spans = []) ∧
    (expErr = none → (startCalls (main expErr fuel).2.trace).length = 4 * fuel) ∧
    (∀ pre post, (main expErr fuel).2.trace = pre ++ Call.shutdown :: post →
      startCalls post = []) := by
  cases expErr with
  | some err =>
    rw [main_of_init_error]
    refine ⟨rfl, rfl, ?_, ?_, ?_, ?_⟩
    · intro c hc
      simp [startCalls, Call.asStart] at hc
    · intro e he
      cases he
      exact ⟨rfl, rfl, rfl⟩
    · intro h
      cases h
    · intro pre post h
      have hm : Call.shutdown ∈ [Call.initTracer false] := by
        rw [show [Call.initTracer false] = pre ++ Call.shutdown :: post from h]
        simp
      simp at hm
  | none =>
    obtain ⟨d, ht, hl, hs, hn, -⟩ := main_trace_of_init_ok fuel
    have hfilter : d.filter Call.isInit = [] := by
      rw [List.filter_eq_nil_iff]
      intro c hc
      have := hl c hc
      cases c <;> simp_all [Call.isLifecycle, Call.isInit]
    refine ⟨?_, ?_, ?_, ?_, ?_, ?_⟩
    · rw [ht, List.filter_append, hfilter]
      rfl
    · rw [ht]
      rfl
    · intro c hc
      rw [ht] at hc
      simp only [startCalls, List.filterMap_append] at hc
      rw [List.mem_append] at hc
      rcases hc with hc | hc
      · simp [Call.asStart] at hc
      · exact hs c hc
    · intro e he
      cases he
    · intro _
      rw [ht]
      simp only [startCalls, List.filterMap_append, List.length_append] at hn ⊢
      rw [hn]
      simp [Call.asStart]
    · intro pre post h
      have hm : Call.shutdown ∈ (main none fuel).2.trace := by
        rw [h]
        simp
      rw [ht, List.mem_append] at hm
      rcases hm with hm | hm
      · simp at hm
      · have := hl _ hm
        simp [Call.isLifecycle] at this

/-- C10: for every `n`, when `initTracer` has succeeded and the loop of `main` is
followed for `n` iterations, `main` has made `n` calls of `Operation` (4 `n` spans
started and handed to the batch buffer) and is still looping: it has neither
panicked nor returned, `SubOperation` and `PeerOperation` return no error and
`Operation` does not panic in any state, no `Shutdown` call was made, the provider
is still Running, nothing was drained, and one more iteration only extends the
trace. -/
theorem C10_main_loop_has_no_exit (n : Nat) :
    (main none n).1 = .looping ∧
    ((startCalls (main none n).2.trace).filter
      (fun c => c.name == "Main operation")).length = n ∧
    (main none n).2.spans.length = 4 * n ∧
    (main none n).2.pending.length = 4 * n ∧
    (∀ (ctx : Carrier) (tr : Tracer) (w : World),
      (SubOperation ctx tr w).1 = none ∧ (PeerOperation ctx tr w).1 = none ∧
        (Operation ctx tr w).1 = .ok ()) ∧
    Call.shutdown ∉ (main none n).2.trace ∧
    (main none n).2.provider = .Running ∧
    (main none n).2.drained = [] ∧
    (main none n).2.trace <+: (main none (n + 1)).2.trace := by
  obtain ⟨d, ht, hl, -, -, hcount⟩ := main_trace_of_init_ok n
  obtain ⟨d2, -, hp, -, hd, hsp, hpe, -⟩ :=
    mainLoop_running mainCarrier mainTracer n loopEntry loopEntry_running
  refine ⟨?_, ?_, ?_, ?_, ?_, ?_, ?_, ?_, ?_⟩
  · rw [main_of_init_ok]
  · rw [ht]
    simp only [startCalls, List.filterMap_append, List.filter_append,
      List.length_append] at hcount ⊢
    rw [hcount]
    simp [Call.asStart]
  · rw [main_of_init_ok]
    simp only
    rw [hsp]
    simp [loopEntry, getTracer, initTracer, registerProvider, World.init]
  · rw [main_of_init_ok]
    simp only
    rw [hpe]
    simp [loopEntry, getTracer, initTracer, registerProvider, World.init]
  · intro ctx tr w
    refine ⟨rfl, rfl, rfl⟩
  · intro hm
    rw [ht, List.mem_append] at hm
    rcases hm with hm | hm
    · simp at hm
    · have := hl _ hm
      simp [Call.isLifecycle] at this
  · rw [main_of_init_ok]
    exact hp
  · rw [main_of_init_ok]
    simp only
    rw [hd]
    rfl
  · rw [main_of_init_ok, main_of_init_ok]
    exact mainLoop_trace_extends mainCarrier mainTracer n loopEntry loopEntry_running

end OtelTrace
